import Mathlib

/-!
# imaginary: bootstrap layer (`imaginary.go`)

A shallow embedding of `imaginary.go`: the port resolution `getPort`, the two
validators `checkMountDirectory` and `checkHttpCacheTtl`, the memory-release
starter `memoryRelease`, and `main`, which sequences them.

Go's `int` is taken to be 64 bits wide (`strconv.IntSize = 64`).  Functions that
print, exit or call into the runtime are embedded as values of `Run`, a trace
of the calls made together with the way the function ended.
-/

namespace Imaginary

/-! ## Go strings and `strconv` -/

/-- UTF-8 bytes of one character: a Go string is its byte sequence. -/
def utf8Bytes (c : Char) : List Nat :=
  let n := c.toNat
  if n < 0x80 then [n]
  else if n < 0x800 then [0xC0 + n / 64, 0x80 + n % 64]
  else if n < 0x10000 then [0xE0 + n / 4096, 0x80 + n / 64 % 64, 0x80 + n % 64]
  else [0xF0 + n / 262144, 0x80 + n / 4096 % 64, 0x80 + n / 64 % 64, 0x80 + n % 64]

/-- Byte sequence of a Go string, `[]byte(s)`. -/
def goBytes (s : String) : List Nat :=
  s.toList.flatMap utf8Bytes

/-- The two error kinds of `strconv.NumError` that `ParseUint`, `ParseInt` and
`Atoi` produce for base 10. -/
inductive NumError where
  | ErrSyntaxKind
  | ErrRangeKind
  deriving DecidableEq, Repr

/-- Constant `maxUint64` of `strconv`. -/
def maxUint64 : Nat := 2 ^ 64 - 1

/-- Function `lower` of `strconv`: `c | ('x' - 'X')` on a byte. -/
def lower (c : Nat) : Nat := c ||| 32

/-- The digit loop of `strconv.ParseUint(s, 10, 64)` over the bytes still to
read, `n` being the value accumulated so far (a `uint64`).  `cutoff` is
`maxUint64/10 + 1` and `maxVal` is `1<<64 - 1`.  A range error returns at once,
without looking at the bytes that follow. -/
def parseUintLoop (cutoff maxVal : Nat) : List Nat → Nat → Nat × Option NumError
  | [], n => (n, none)
  | c :: cs, n =>
    if 48 ≤ c ∧ c ≤ 57 then
      let d := c - 48
      if n ≥ cutoff then (maxVal, some NumError.ErrRangeKind)
      else
        let n10 := (n * 10) % 2 ^ 64
        let n1 := (n10 + d) % 2 ^ 64
        if n1 < n10 ∨ n1 > maxVal then (maxVal, some NumError.ErrRangeKind)
        else parseUintLoop cutoff maxVal cs n1
    else if 97 ≤ lower c ∧ lower c ≤ 122 then
      -- d = lower(c) - 'a' + 10 is at least the base 10
      (0, some NumError.ErrSyntaxKind)
    else (0, some NumError.ErrSyntaxKind)

/-- Go's `strconv.ParseUint(s, 10, 0)` with `IntSize = 64`, on the bytes of `s`. -/
def ParseUint (s : List Nat) : Nat × Option NumError :=
  if s = [] then (0, some NumError.ErrSyntaxKind)
  else parseUintLoop (maxUint64 / 10 + 1) (2 ^ 64 - 1) s 0

/-- Go's `strconv.ParseInt(s, 10, 0)` with `IntSize = 64`, on the bytes of `s`.
On a range error the value returned is the largest magnitude of the sign. -/
def ParseInt (s : List Nat) : Int × Option NumError :=
  match s with
  | [] => (0, some NumError.ErrSyntaxKind)
  | c :: cs =>
    let neg := c = 45
    let rest := if c = 43 ∨ c = 45 then cs else c :: cs
    match ParseUint rest with
    | (_, some NumError.ErrSyntaxKind) => (0, some NumError.ErrSyntaxKind)
    | (un, _) =>
      let cutoff : Nat := 2 ^ 63
      if ¬ neg ∧ un ≥ cutoff then ((cutoff : Int) - 1, some NumError.ErrRangeKind)
      else if neg ∧ un > cutoff then (-(cutoff : Int), some NumError.ErrRangeKind)
      else if neg then (-(un : Int), none) else ((un : Int), none)

/-- The digit loop of the fast path of `strconv.Atoi`: `ch -= '0'` is a byte
subtraction, so a byte below `'0'` wraps to a value above 9. -/
def atoiFastLoop : List Nat → Int → Option Int
  | [], n => some n
  | ch :: cs, n =>
    let ch0 := (ch + 256 - 48) % 256
    if ch0 > 9 then none else atoiFastLoop cs (n * 10 + (ch0 : Int))

/-- Go's `strconv.Atoi(s)` with `intSize = 64`: the value and the error; `none`
is a `nil` error. -/
def Atoi (s : String) : Int × Option NumError :=
  let b := goBytes s
  if 0 < b.length ∧ b.length < 19 then
    match b with
    | [] => (0, some NumError.ErrSyntaxKind)
    | c :: cs =>
      let rest := if c = 45 ∨ c = 43 then cs else c :: cs
      if rest.length < 1 then (0, some NumError.ErrSyntaxKind)
      else
        match atoiFastLoop rest 0 with
        | none => (0, some NumError.ErrSyntaxKind)
        | some n => if c = 45 then (-n, none) else (n, none)
  else ParseInt b

/-! ## The process environment -/

/-- Result of `os.Stat`: an error, or a file entry with its `IsDir()`. -/
inductive StatResult where
  | error (e : String)
  | info (isDir : Bool)
  deriving DecidableEq, Repr

/-- Modelled from the spec: the `ServerOptions` record, whose declaration is not
in `imaginary.go`; its fields are those of spec section 3, the ones `main` fills
in. -/
structure ServerOptions where
  Port : Int
  Address : String
  Gzip : Bool
  CORS : Bool
  ApiKey : String
  Concurrency : Int
  Burst : Int
  Mount : String
  CertFile : String
  KeyFile : String
  HttpCacheTtl : Int
  deriving DecidableEq, Repr

/-- What the process sees outside itself: the environment variables, the file
system through `os.Stat`, and the external `Server` entry point, which returns
an error (`some`) or `nil` (`none`). -/
structure World where
  env : String → Option String
  stat : String → StatResult
  server : ServerOptions → Option String

/-- Go's `os.Getenv`: the value of the variable, empty when it is unset. -/
def Getenv (w : World) (key : String) : String :=
  (w.env key).getD ""

/-- Source `getPort`: the `PORT` variable overrides the configured port when
`Atoi` gives a positive value; the error of `Atoi` is discarded. -/
def getPort (w : World) (port : Int) : Int :=
  let portEnv := Getenv w "PORT"
  if portEnv ≠ "" then
    let newPort := (Atoi portEnv).1
    if newPort > 0 then newPort else port
  else port

/-! ## Runs: traces and outcomes -/

/-- Diagnostics that the program writes to `os.Stderr`. -/
inductive Diag where
  /-- Text "error while mounting directory: %s". -/
  | mountError
  /-- Text "mount path is not a directory: %s". -/
  | mountNotDirectory
  /-- Text "The -http-cache-ttl flag accepts a value from 0 to 31556926". -/
  | cacheTtlRange
  /-- Text "cannot start the server: %s". -/
  | cannotStart
  deriving DecidableEq, Repr

/-- Functions of `imaginary.go` that `main` calls for their effects. -/
inductive Fn where
  | showUsage
  | showVersion
  | memoryRelease
  | checkMountDirectory
  | checkHttpCacheTtl
  deriving DecidableEq, Repr

/-- One step of a run that is visible from outside the function making it. -/
inductive Event where
  /-- Entry into a function of the program. -/
  | enter (f : Fn)
  /-- Call `flag.Usage()`: the usage text goes to `os.Stderr`. -/
  | usage
  /-- Call `fmt.Println(Version)`. -/
  | printVersion
  /-- Call `runtime.GOMAXPROCS(n)`. -/
  | gomaxprocs (n : Int)
  /-- Call `time.NewTicker(d)` that returned a ticker, `d` in nanoseconds. -/
  | newTicker (d : Int)
  /-- Statement `go func() ...`: the loop calling `FreeOSMemory` is started. -/
  | goFreeOSMemory
  /-- Call `os.Stat(path)`. -/
  | stat (path : String)
  /-- A diagnostic written to `os.Stderr`. -/
  | stderr (m : Diag)
  /-- A call of `debug`. -/
  | debug
  /-- Call `Server(opts)`. -/
  | server (opts : ServerOptions)
  deriving DecidableEq, Repr

/-- How a function ends: it returns a value, the process exits through
`os.Exit(code)`, or it panics (an unrecovered panic ends a Go process with
status 2). -/
inductive Outcome (α : Type) where
  | ret (a : α)
  | exit (code : Int)
  | panic
  deriving DecidableEq, Repr

/-- A run of a function: the events in order, and the outcome. -/
structure Run (α : Type) where
  trace : List Event
  out : Outcome α
  deriving DecidableEq, Repr

namespace Run

/-- Sequencing: the second part runs only when the first one returns. -/
def bind {α β : Type} (r : Run α) (k : α → Run β) : Run β :=
  match r.out with
  | Outcome.ret a => ⟨r.trace ++ (k a).trace, (k a).out⟩
  | Outcome.exit c => ⟨r.trace, Outcome.exit c⟩
  | Outcome.panic => ⟨r.trace, Outcome.panic⟩

instance : Monad Run where
  pure a := ⟨[], Outcome.ret a⟩
  bind := Run.bind

/-- One event, then return. -/
def emit (e : Event) : Run Unit := ⟨[e], Outcome.ret ()⟩

/-- Call `os.Exit(code)`. -/
def osExit {α : Type} (code : Int) : Run α := ⟨[], Outcome.exit code⟩

/-- An unrecovered panic. -/
def goPanic {α : Type} : Run α := ⟨[], Outcome.panic⟩

end Run

open Run

/-! ## The program -/

/-- The parsed command-line flags, named as the package-level variables. -/
structure Flags where
  aAddr : String
  aPort : Int
  aVers : Bool
  aVersl : Bool
  aHelp : Bool
  aHelpl : Bool
  aCors : Bool
  aGzip : Bool
  aKey : String
  aMount : String
  aCertFile : String
  aKeyFile : String
  aHttpCacheTtl : Int
  aConcurrency : Int
  aBurst : Int
  aMRelease : Int
  aCpus : Int
  deriving DecidableEq, Repr

/-- Source `showUsage`: print the usage text and exit with status 1. -/
def showUsage : Run Unit := do
  emit (Event.enter Fn.showUsage)
  emit Event.usage
  osExit 1

/-- Source `showVersion`: print the version and exit with status 1. -/
def showVersion : Run Unit := do
  emit (Event.enter Fn.showVersion)
  emit Event.printVersion
  osExit 1

/-- Source `checkMountDirectory`. -/
def checkMountDirectory (w : World) (path : String) : Run Unit := do
  emit (Event.enter Fn.checkMountDirectory)
  emit (Event.stat path)
  match w.stat path with
  | StatResult.error _ => do
    emit (Event.stderr Diag.mountError)
    osExit 1
  | StatResult.info isDir =>
    if isDir = false then do
      emit (Event.stderr Diag.mountNotDirectory)
      osExit 1
    else pure ()

/-- Source `checkHttpCacheTtl`. -/
def checkHttpCacheTtl (ttl : Int) : Run Unit := do
  emit (Event.enter Fn.checkHttpCacheTtl)
  (if ttl < -1 ∨ ttl > 31556926 then do
    emit (Event.stderr Diag.cacheTtlRange)
    osExit 1
  else pure ())
  (if ttl = 0 then emit Event.debug else pure ())

/-- Conversion of an integer to `int64`, two's complement. -/
def wrapInt64 (x : Int) : Int := (x + 2 ^ 63) % 2 ^ 64 - 2 ^ 63

/-- Constant `time.Second`, in nanoseconds. -/
def Second : Int := 1000000000

/-- Expression `time.Duration(interval) * time.Second` of `memoryRelease`: a
product of two `int64`. -/
def tickerPeriod (interval : Int) : Int := wrapInt64 (wrapInt64 interval * Second)

/-- Go's `time.NewTicker(d)`: panics when `d <= 0`. -/
def NewTicker (d : Int) : Run Unit :=
  if d ≤ 0 then goPanic else emit (Event.newTicker d)

/-- Source `memoryRelease`: create the ticker, then start the goroutine that
calls `FreeOSMemory` at each tick. -/
def memoryRelease (interval : Int) : Run Unit := do
  emit (Event.enter Fn.memoryRelease)
  NewTicker (tickerPeriod interval)
  emit Event.goFreeOSMemory

/-- The composite literal `ServerOptions{...}` of `main`, with `port` the value
of `getPort(*aPort)`. -/
def composeOptions (port : Int) (f : Flags) : ServerOptions :=
  { Port := port, Address := f.aAddr, Gzip := f.aGzip, CORS := f.aCors,
    ApiKey := f.aKey, Concurrency := f.aConcurrency, Burst := f.aBurst,
    Mount := f.aMount, CertFile := f.aCertFile, KeyFile := f.aKeyFile,
    HttpCacheTtl := f.aHttpCacheTtl }

/-- Source `main`, from after `flag.Parse()`.  An `if` without `else` is
followed by the rest of the body whichever way it goes (unless it exits). -/
def main (w : World) (f : Flags) : Run Unit := do
  (if f.aHelp || f.aHelpl then showUsage else pure ())
  (if f.aVers || f.aVersl then showVersion else pure ())
  emit (Event.gomaxprocs f.aCpus)
  let port := getPort w f.aPort
  let opts := composeOptions port f
  (if f.aMRelease > 0 then memoryRelease f.aMRelease else pure ())
  (if f.aMount ≠ "" then checkMountDirectory w f.aMount else pure ())
  (if f.aHttpCacheTtl ≠ -1 then checkHttpCacheTtl f.aHttpCacheTtl else pure ())
  emit Event.debug
  emit (Event.server opts)
  match w.server opts with
  | some _ => do
    emit (Event.stderr Diag.cannotStart)
    osExit 1
  | none => pure ()

/-- A world without environment variables, where every path fails to stat and
`Server` returns `nil`. -/
def emptyWorld : World :=
  { env := fun _ => none, stat := fun _ => StatResult.error "no such file or directory",
    server := fun _ => none }

/-- The flags at their defaults (with 4 cores). -/
def defaultFlags : Flags :=
  { aAddr := "", aPort := 8088, aVers := false, aVersl := false, aHelp := false,
    aHelpl := false, aCors := false, aGzip := false, aKey := "", aMount := "",
    aCertFile := "", aKeyFile := "", aHttpCacheTtl := -1, aConcurrency := 0,
    aBurst := 100, aMRelease := 30, aCpus := 4 }

/-! ## Properties of runs -/

/-- The external `Server` entry point is invoked in the run. -/
def serverInvoked (r : Run Unit) : Prop :=
  ∃ o, Event.server o ∈ r.trace

/-- A mount or cache-TTL validation fails in the run: one of the diagnostics of
`checkMountDirectory` and `checkHttpCacheTtl` is written. -/
def validationFailed (r : Run Unit) : Prop :=
  Event.stderr Diag.mountError ∈ r.trace ∨
  Event.stderr Diag.mountNotDirectory ∈ r.trace ∨
  Event.stderr Diag.cacheTtlRange ∈ r.trace

/-- The memory-release task is started in the run. -/
def reclaimerStarted (r : Run Unit) : Prop :=
  Event.goFreeOSMemory ∈ r.trace

/-! ## The runs of `main`, case by case -/

/-- Events of the memory-release step of `main` when it returns. -/
def releaseTrace (f : Flags) : List Event :=
  if f.aMRelease > 0 then
    [Event.enter Fn.memoryRelease, Event.newTicker (tickerPeriod f.aMRelease),
      Event.goFreeOSMemory]
  else []

/-- Events of the mount step of `main` when it returns. -/
def mountTrace (f : Flags) : List Event :=
  if f.aMount ≠ "" then [Event.enter Fn.checkMountDirectory, Event.stat f.aMount] else []

/-- Events of the cache-TTL step of `main` when it returns. -/
def ttlTrace (f : Flags) : List Event :=
  if f.aHttpCacheTtl ≠ -1 then
    (if f.aHttpCacheTtl = 0 then [Event.enter Fn.checkHttpCacheTtl, Event.debug]
     else [Event.enter Fn.checkHttpCacheTtl])
  else []

/-- Neither `-h` nor `-help` nor `-v` nor `-version` is set. -/
def noInfoFlag (f : Flags) : Prop :=
  f.aHelp = false ∧ f.aHelpl = false ∧ f.aVers = false ∧ f.aVersl = false

/-- The ticker of the memory-release step, if any, is created without panic. -/
def tickerOk (f : Flags) : Prop :=
  f.aMRelease > 0 → 0 < tickerPeriod f.aMRelease

/-- The mount path is empty or stats as a directory. -/
def mountOk (w : World) (f : Flags) : Prop :=
  f.aMount = "" ∨ w.stat f.aMount = StatResult.info true

/-- The cache TTL lies in the accepted range. -/
def ttlOk (f : Flags) : Prop :=
  -1 ≤ f.aHttpCacheTtl ∧ f.aHttpCacheTtl ≤ 31556926

/-- The events of `main` before the `Server` call, when every step before it
returns. -/
def preServerTrace (f : Flags) : List Event :=
  Event.gomaxprocs f.aCpus :: (releaseTrace f ++ (mountTrace f ++ (ttlTrace f ++ [Event.debug])))

/-- The shapes of a run of `main`, in the order in which the source can end. -/
inductive MainShape (w : World) (f : Flags) : Run Unit → Prop where
  | help : (f.aHelp = true ∨ f.aHelpl = true) →
      MainShape w f ⟨[Event.enter Fn.showUsage, Event.usage], Outcome.exit 1⟩
  | version : f.aHelp = false → f.aHelpl = false → (f.aVers = true ∨ f.aVersl = true) →
      MainShape w f ⟨[Event.enter Fn.showVersion, Event.printVersion], Outcome.exit 1⟩
  | tickerPanic : noInfoFlag f → f.aMRelease > 0 → tickerPeriod f.aMRelease ≤ 0 →
      MainShape w f ⟨[Event.gomaxprocs f.aCpus, Event.enter Fn.memoryRelease], Outcome.panic⟩
  | mountError (e : String) : noInfoFlag f → tickerOk f → f.aMount ≠ "" →
      w.stat f.aMount = StatResult.error e →
      MainShape w f ⟨Event.gomaxprocs f.aCpus :: (releaseTrace f ++
        [Event.enter Fn.checkMountDirectory, Event.stat f.aMount,
          Event.stderr Diag.mountError]), Outcome.exit 1⟩
  | mountNotDirectory : noInfoFlag f → tickerOk f → f.aMount ≠ "" →
      w.stat f.aMount = StatResult.info false →
      MainShape w f ⟨Event.gomaxprocs f.aCpus :: (releaseTrace f ++
        [Event.enter Fn.checkMountDirectory, Event.stat f.aMount,
          Event.stderr Diag.mountNotDirectory]), Outcome.exit 1⟩
  | ttlRange : noInfoFlag f → tickerOk f → mountOk w f → ¬ ttlOk f →
      MainShape w f ⟨Event.gomaxprocs f.aCpus :: (releaseTrace f ++ (mountTrace f ++
        [Event.enter Fn.checkHttpCacheTtl, Event.stderr Diag.cacheTtlRange])),
        Outcome.exit 1⟩
  | serverError (e : String) : noInfoFlag f → tickerOk f → mountOk w f → ttlOk f →
      w.server (composeOptions (getPort w f.aPort) f) = some e →
      MainShape w f ⟨preServerTrace f ++
        [Event.server (composeOptions (getPort w f.aPort) f),
          Event.stderr Diag.cannotStart], Outcome.exit 1⟩
  | serverNil : noInfoFlag f → tickerOk f → mountOk w f → ttlOk f →
      w.server (composeOptions (getPort w f.aPort) f) = none →
      MainShape w f ⟨preServerTrace f ++
        [Event.server (composeOptions (getPort w f.aPort) f)], Outcome.ret ()⟩

/-- A world where `PORT` is set to `s` and nothing else differs from
`emptyWorld`. -/
def portWorld (s : String) : World :=
  { env := fun k => if k = "PORT" then some s else none,
    stat := fun _ => StatResult.error "no such file or directory",
    server := fun _ => none }

/-- A world where the path `/srv` is a directory, `/etc/hosts` a regular file,
and no other path exists. -/
def mountWorld : World :=
  { env := fun _ => none,
    stat := fun p => if p = "/srv" then StatResult.info true
      else if p = "/etc/hosts" then StatResult.info false
      else StatResult.error "no such file or directory",
    server := fun _ => none }

/-- The diagnostic `d` is the one with which the check `chk` fails. -/
def failsWith (chk : Fn) (d : Diag) : Prop :=
  (chk = Fn.checkMountDirectory ∧ (d = Diag.mountError ∨ d = Diag.mountNotDirectory)) ∨
  (chk = Fn.checkHttpCacheTtl ∧ d = Diag.cacheTtlRange)

/-- The default flags with `-help` and the mount path `/srv`. -/
def helpMountFlags : Flags :=
  { defaultFlags with aHelpl := true, aMount := "/srv" }

/-- The default flags with `-mrelease 9223372037` and a mount path that does not
exist. -/
def overflowMountFlags : Flags :=
  { defaultFlags with aMRelease := 9223372037, aMount := "/nonexistent" }

/-- The default flags (`-mrelease 30`) with a mount path that does not exist. -/
def missingMountFlags : Flags :=
  { defaultFlags with aMount := "/nonexistent" }

/-- The default flags (`-mrelease 30`) with the mount path `/srv`. -/
def srvMountFlags : Flags :=
  { defaultFlags with aMount := "/srv" }

/-- The default flags with `-p -1`. -/
def negativePortFlags : Flags :=
  { defaultFlags with aPort := -1 }

/-! ## Sequencing lemmas -/

@[simp] theorem Run.pure_def {α : Type} (a : α) :
    (pure a : Run α) = ⟨[], Outcome.ret a⟩ := rfl

@[simp] theorem Run.bind_def {α β : Type} (r : Run α) (k : α → Run β) :
    (r >>= k) = Run.bind r k := rfl

@[simp] theorem Run.bind_ret {α β : Type} (t : List Event) (a : α) (k : α → Run β) :
    Run.bind ⟨t, Outcome.ret a⟩ k = ⟨t ++ (k a).trace, (k a).out⟩ := rfl

@[simp] theorem Run.bind_exit {α β : Type} (t : List Event) (c : Int) (k : α → Run β) :
    Run.bind ⟨t, Outcome.exit c⟩ k = ⟨t, Outcome.exit c⟩ := rfl

@[simp] theorem Run.bind_panic {α β : Type} (t : List Event) (k : α → Run β) :
    Run.bind (⟨t, Outcome.panic⟩ : Run α) k = ⟨t, Outcome.panic⟩ := rfl

/-! ## The runs of `main`, case by case: lemmas -/

theorem main_help (w : World) (f : Flags) (h : f.aHelp = true ∨ f.aHelpl = true) :
    main w f = ⟨[Event.enter Fn.showUsage, Event.usage], Outcome.exit 1⟩ := by
  have hb : (f.aHelp || f.aHelpl) = true := by
    rcases h with h | h <;> simp [h]
  simp [main, hb, showUsage, emit, osExit]

theorem main_version (w : World) (f : Flags) (h : f.aHelp = false ∧ f.aHelpl = false)
    (hv : f.aVers = true ∨ f.aVersl = true) :
    main w f = ⟨[Event.enter Fn.showVersion, Event.printVersion], Outcome.exit 1⟩ := by
  have hb : (f.aVers || f.aVersl) = true := by
    rcases hv with h | h <;> simp [h]
  simp [main, h.1, h.2, hb, showVersion, emit, osExit]

theorem main_tickerPanic (w : World) (f : Flags) (h : noInfoFlag f) (ht : ¬ tickerOk f) :
    main w f = ⟨[Event.gomaxprocs f.aCpus, Event.enter Fn.memoryRelease], Outcome.panic⟩ := by
  obtain ⟨h1, h2, h3, h4⟩ := h
  simp only [tickerOk, not_forall, not_lt] at ht
  obtain ⟨hm, hp⟩ := ht
  simp [main, h1, h2, h3, h4, hm, hp, memoryRelease, NewTicker, emit, goPanic]

theorem main_mountError (w : World) (f : Flags) (h : noInfoFlag f) (ht : tickerOk f)
    (hm : f.aMount ≠ "") (e : String) (hs : w.stat f.aMount = StatResult.error e) :
    main w f = ⟨Event.gomaxprocs f.aCpus :: (releaseTrace f ++
      [Event.enter Fn.checkMountDirectory, Event.stat f.aMount,
        Event.stderr Diag.mountError]), Outcome.exit 1⟩ := by
  obtain ⟨h1, h2, h3, h4⟩ := h
  by_cases hr : f.aMRelease > 0
  · have hp : ¬ tickerPeriod f.aMRelease ≤ 0 := not_le.mpr (ht hr)
    simp [main, h1, h2, h3, h4, hr, hp, hm, hs, memoryRelease, NewTicker, emit, osExit,
      checkMountDirectory, releaseTrace]
  · simp [main, h1, h2, h3, h4, hr, hm, hs, emit, osExit, checkMountDirectory, releaseTrace]

theorem main_mountNotDirectory (w : World) (f : Flags) (h : noInfoFlag f) (ht : tickerOk f)
    (hm : f.aMount ≠ "") (hs : w.stat f.aMount = StatResult.info false) :
    main w f = ⟨Event.gomaxprocs f.aCpus :: (releaseTrace f ++
      [Event.enter Fn.checkMountDirectory, Event.stat f.aMount,
        Event.stderr Diag.mountNotDirectory]), Outcome.exit 1⟩ := by
  obtain ⟨h1, h2, h3, h4⟩ := h
  by_cases hr : f.aMRelease > 0
  · have hp : ¬ tickerPeriod f.aMRelease ≤ 0 := not_le.mpr (ht hr)
    simp [main, h1, h2, h3, h4, hr, hp, hm, hs, memoryRelease, NewTicker, emit, osExit,
      checkMountDirectory, releaseTrace]
  · simp [main, h1, h2, h3, h4, hr, hm, hs, emit, osExit, checkMountDirectory, releaseTrace]

theorem main_ttlRange (w : World) (f : Flags) (h : noInfoFlag f) (ht : tickerOk f)
    (hm : mountOk w f) (hr : ¬ ttlOk f) :
    main w f = ⟨Event.gomaxprocs f.aCpus :: (releaseTrace f ++ (mountTrace f ++
      [Event.enter Fn.checkHttpCacheTtl, Event.stderr Diag.cacheTtlRange])),
      Outcome.exit 1⟩ := by
  obtain ⟨h1, h2, h3, h4⟩ := h
  have hne : f.aHttpCacheTtl ≠ -1 := by
    intro h; apply hr; simp [ttlOk, h]
  have hout : f.aHttpCacheTtl < -1 ∨ f.aHttpCacheTtl > 31556926 := by
    simp only [ttlOk, not_and_or, not_le] at hr; omega
  by_cases hrel : f.aMRelease > 0
  · have hp : ¬ tickerPeriod f.aMRelease ≤ 0 := not_le.mpr (ht hrel)
    by_cases hmt : f.aMount = ""
    · simp [main, h1, h2, h3, h4, hrel, hp, hmt, hne, hout, memoryRelease, NewTicker, emit,
        osExit, checkHttpCacheTtl, releaseTrace, mountTrace]
    · have hs : w.stat f.aMount = StatResult.info true := hm.resolve_left hmt
      simp [main, h1, h2, h3, h4, hrel, hp, hmt, hs, hne, hout, memoryRelease, NewTicker, emit,
        osExit, checkMountDirectory, checkHttpCacheTtl, releaseTrace, mountTrace]
  · by_cases hmt : f.aMount = ""
    · simp [main, h1, h2, h3, h4, hrel, hmt, hne, hout, emit,
        osExit, checkHttpCacheTtl, releaseTrace, mountTrace]
    · have hs : w.stat f.aMount = StatResult.info true := hm.resolve_left hmt
      simp [main, h1, h2, h3, h4, hrel, hmt, hs, hne, hout, emit,
        osExit, checkMountDirectory, checkHttpCacheTtl, releaseTrace, mountTrace]

/-- The run of `main` up to and including the `Server` call, when every step
before it returns. -/
theorem main_server (w : World) (f : Flags) (h : noInfoFlag f) (ht : tickerOk f)
    (hm : mountOk w f) (hr : ttlOk f) :
    main w f = Run.bind ⟨Event.gomaxprocs f.aCpus :: (releaseTrace f ++ (mountTrace f ++
      (ttlTrace f ++ [Event.debug,
        Event.server (composeOptions (getPort w f.aPort) f)]))), Outcome.ret ()⟩
      (fun _ => match w.server (composeOptions (getPort w f.aPort) f) with
        | some _ => ⟨[Event.stderr Diag.cannotStart], Outcome.exit 1⟩
        | none => ⟨[], Outcome.ret ()⟩) := by
  obtain ⟨h1, h2, h3, h4⟩ := h
  have hout : ¬ (f.aHttpCacheTtl < -1 ∨ f.aHttpCacheTtl > 31556926) := by
    simp only [ttlOk] at hr; omega
  by_cases hrel : f.aMRelease > 0
  · have hp : ¬ tickerPeriod f.aMRelease ≤ 0 := not_le.mpr (ht hrel)
    by_cases hmt : f.aMount = ""
    · by_cases hn : f.aHttpCacheTtl = -1
      · simp [main, h1, h2, h3, h4, hrel, hp, hmt, hn, memoryRelease, NewTicker,
          emit, osExit, releaseTrace, mountTrace, ttlTrace]
      · by_cases h0 : f.aHttpCacheTtl = 0
        · simp [main, h1, h2, h3, h4, hrel, hp, hmt, h0, memoryRelease, NewTicker,
            emit, osExit, checkHttpCacheTtl, releaseTrace, mountTrace, ttlTrace]
        · simp [main, h1, h2, h3, h4, hrel, hp, hmt, hn, h0, hout, memoryRelease, NewTicker,
            emit, osExit, checkHttpCacheTtl, releaseTrace, mountTrace, ttlTrace]
    · have hs : w.stat f.aMount = StatResult.info true := hm.resolve_left hmt
      by_cases hn : f.aHttpCacheTtl = -1
      · simp [main, h1, h2, h3, h4, hrel, hp, hmt, hs, hn, memoryRelease, NewTicker,
          emit, osExit, checkMountDirectory, releaseTrace, mountTrace, ttlTrace]
      · by_cases h0 : f.aHttpCacheTtl = 0
        · simp [main, h1, h2, h3, h4, hrel, hp, hmt, hs, h0, memoryRelease, NewTicker,
            emit, osExit, checkMountDirectory, checkHttpCacheTtl, releaseTrace, mountTrace,
            ttlTrace]
        · simp [main, h1, h2, h3, h4, hrel, hp, hmt, hs, hn, h0, hout, memoryRelease,
            NewTicker, emit, osExit, checkMountDirectory, checkHttpCacheTtl, releaseTrace,
            mountTrace, ttlTrace]
  · by_cases hmt : f.aMount = ""
    · by_cases hn : f.aHttpCacheTtl = -1
      · simp [main, h1, h2, h3, h4, hrel, hmt, hn,
          emit, osExit, releaseTrace, mountTrace, ttlTrace]
      · by_cases h0 : f.aHttpCacheTtl = 0
        · simp [main, h1, h2, h3, h4, hrel, hmt, h0,
            emit, osExit, checkHttpCacheTtl, releaseTrace, mountTrace, ttlTrace]
        · simp [main, h1, h2, h3, h4, hrel, hmt, hn, h0, hout,
            emit, osExit, checkHttpCacheTtl, releaseTrace, mountTrace, ttlTrace]
    · have hs : w.stat f.aMount = StatResult.info true := hm.resolve_left hmt
      by_cases hn : f.aHttpCacheTtl = -1
      · simp [main, h1, h2, h3, h4, hrel, hmt, hs, hn,
          emit, osExit, checkMountDirectory, releaseTrace, mountTrace, ttlTrace]
      · by_cases h0 : f.aHttpCacheTtl = 0
        · simp [main, h1, h2, h3, h4, hrel, hmt, hs, h0,
            emit, osExit, checkMountDirectory, checkHttpCacheTtl, releaseTrace, mountTrace,
            ttlTrace]
        · simp [main, h1, h2, h3, h4, hrel, hmt, hs, hn, h0, hout,
            emit, osExit, checkMountDirectory, checkHttpCacheTtl, releaseTrace,
            mountTrace, ttlTrace]

/-- Every run of `main` has one of the shapes of `MainShape`. -/
theorem main_shape (w : World) (f : Flags) : MainShape w f (main w f) := by
  by_cases hh : f.aHelp = true ∨ f.aHelpl = true
  · rw [main_help w f hh]; exact MainShape.help hh
  have hh1 : f.aHelp = false := by
    cases h : f.aHelp <;> simp [h] at hh ⊢
  have hh2 : f.aHelpl = false := by
    cases h : f.aHelpl <;> simp [h] at hh ⊢
  by_cases hv : f.aVers = true ∨ f.aVersl = true
  · rw [main_version w f ⟨hh1, hh2⟩ hv]; exact MainShape.version hh1 hh2 hv
  have hv1 : f.aVers = false := by
    cases h : f.aVers <;> simp [h] at hv ⊢
  have hv2 : f.aVersl = false := by
    cases h : f.aVersl <;> simp [h] at hv ⊢
  have hn : noInfoFlag f := ⟨hh1, hh2, hv1, hv2⟩
  by_cases ht : tickerOk f
  swap
  · rw [main_tickerPanic w f hn ht]
    simp only [tickerOk, not_forall, not_lt] at ht
    obtain ⟨hm, hp⟩ := ht
    exact MainShape.tickerPanic hn hm hp
  by_cases hm : mountOk w f
  swap
  · simp only [mountOk, not_or] at hm
    obtain ⟨hne, hs⟩ := hm
    rcases hst : w.stat f.aMount with e | d
    · rw [main_mountError w f hn ht hne e hst]; exact MainShape.mountError e hn ht hne hst
    · cases d
      · rw [main_mountNotDirectory w f hn ht hne hst]
        exact MainShape.mountNotDirectory hn ht hne hst
      · exact absurd hst hs
  by_cases hr : ttlOk f
  swap
  · rw [main_ttlRange w f hn ht hm hr]; exact MainShape.ttlRange hn ht hm hr
  rw [main_server w f hn ht hm hr]
  rcases hsv : w.server (composeOptions (getPort w f.aPort) f) with _ | e
  · have := MainShape.serverNil hn ht hm hr hsv
    simpa [preServerTrace] using this
  · have := MainShape.serverError e hn ht hm hr hsv
    simpa [preServerTrace] using this

/-! ## `Atoi` and `getPort` -/

/-- A syntax error of `ParseInt` comes with the value 0. -/
theorem ParseInt_syntax_zero (b : List Nat)
    (h : (ParseInt b).2 = some NumError.ErrSyntaxKind) : (ParseInt b).1 = 0 := by
  rcases b with _ | ⟨c, cs⟩
  · rfl
  · simp only [ParseInt] at h ⊢
    rcases hu : ParseUint (if c = 43 ∨ c = 45 then cs else c :: cs) with ⟨un, _ | e⟩
    · simp only [hu] at h ⊢
      split_ifs at h <;> simp at h
    · cases e
      · simp only [hu]
      · simp only [hu] at h ⊢
        split_ifs at h <;> simp at h

/-- A syntax error of `Atoi` comes with the value 0. -/
theorem Atoi_syntax_zero (s : String)
    (h : (Atoi s).2 = some NumError.ErrSyntaxKind) : (Atoi s).1 = 0 := by
  unfold Atoi at h ⊢
  simp only at h ⊢
  split_ifs at h ⊢ with hlen
  · rcases hb : goBytes s with _ | ⟨c, cs⟩
    · rfl
    · simp only [hb] at h ⊢
      split_ifs at h ⊢ <;> first | rfl | (split at h <;> simp_all)
  · exact ParseInt_syntax_zero _ h

/-- Where `Atoi` reports a syntax error for `PORT`, or returns a value that is
not positive, `getPort` keeps the configured port. -/
theorem getPort_keeps (w : World) (p : Int)
    (h : (Atoi (Getenv w "PORT")).2 = some NumError.ErrSyntaxKind ∨
      (Atoi (Getenv w "PORT")).1 ≤ 0) : getPort w p = p := by
  have hle : (Atoi (Getenv w "PORT")).1 ≤ 0 := by
    rcases h with h | h
    · rw [Atoi_syntax_zero _ h]
    · exact h
  unfold getPort
  simp only
  split_ifs with h1 h2
  · omega
  · rfl
  · rfl

/-! ## The claims -/

/-- C1: a non-empty `PORT` that `Atoi` parses without error to a positive `n`
makes `getPort p` equal to `n`; an unset or empty `PORT` leaves `p`. -/
theorem getPort_precedence (w : World) (p : Int) :
    (∀ s n, w.env "PORT" = some s → s ≠ "" → Atoi s = (n, none) → 0 < n →
      getPort w p = n) ∧
    ((w.env "PORT" = none ∨ w.env "PORT" = some "") → getPort w p = p) := by
  refine ⟨fun s n hs hne ha hn => ?_, fun h => ?_⟩
  · simp [getPort, Getenv, hs, hne, ha, hn]
  · rcases h with h | h <;> simp [getPort, Getenv, h]

/-- C1, at `PORT=9000` with the configured port 8088, and at an unset `PORT`. -/
theorem getPort_precedence_witness :
    getPort (portWorld "9000") 8088 = 9000 ∧ getPort emptyWorld 8088 = 8088 :=
  ⟨(getPort_precedence (portWorld "9000") 8088).1 "9000" 9000 (by decide) (by decide)
      (by decide) (by decide),
    (getPort_precedence emptyWorld 8088).2 (Or.inl rfl)⟩

/-- C2: at `PORT=9223372036854775808`, a digit string out of the `int` range,
`Atoi` returns the largest `int` together with a range error, and `getPort`,
which discards the error, returns that value instead of the configured 8088.
Text that follows the overflowing digits is not even read. -/
theorem getPort_rangeError_overrides :
    Atoi "9223372036854775808" = (9223372036854775807, some NumError.ErrRangeKind) ∧
    getPort (portWorld "9223372036854775808") 8088 = 9223372036854775807 ∧
    getPort (portWorld "99999999999999999999abc") 8088 = 9223372036854775807 ∧
    getPort (portWorld "notanumber") 8088 = 8088 ∧
    getPort (portWorld "-5") 8088 = 8088 := by
  decide

/-- C3: `checkHttpCacheTtl ttl` exits with status 1 exactly when `ttl < -1` or
`ttl > 31556926`, returns for every `ttl` in [-1, 31556926], and `main` does
not call it when the flag is -1. -/
theorem checkHttpCacheTtl_range (ttl : Int) :
    ((checkHttpCacheTtl ttl).out = Outcome.exit 1 ↔ (ttl < -1 ∨ ttl > 31556926)) ∧
    ((-1 ≤ ttl ∧ ttl ≤ 31556926) → (checkHttpCacheTtl ttl).out = Outcome.ret ()) ∧
    (∀ (w : World) (f : Flags), f.aHttpCacheTtl = -1 →
      Event.enter Fn.checkHttpCacheTtl ∉ (main w f).trace) := by
  refine ⟨?_, ?_, ?_⟩
  · by_cases h : ttl < -1 ∨ ttl > 31556926
    · simp [checkHttpCacheTtl, emit, osExit, h]
    · by_cases h0 : ttl = 0
      · simp [checkHttpCacheTtl, emit, osExit, h0]
      · simp [checkHttpCacheTtl, emit, osExit, h, h0]
  · intro hr
    have h : ¬ (ttl < -1 ∨ ttl > 31556926) := by omega
    by_cases h0 : ttl = 0
    · simp [checkHttpCacheTtl, emit, osExit, h0]
    · simp [checkHttpCacheTtl, emit, osExit, h, h0]
  · intro w f hf
    generalize hrun : main w f = r
    have hs : MainShape w f r := hrun ▸ main_shape w f
    cases hs with
    | help h => simp
    | version h1 h2 h => simp
    | tickerPanic hn hm hp => simp
    | mountError e hn ht hne hst => simp [releaseTrace]
    | mountNotDirectory hn ht hne hst => simp [releaseTrace]
    | ttlRange hn ht hm hr => exact absurd (by simp [ttlOk, hf]) hr
    | serverError e hn ht hm hr hsv =>
      simp [preServerTrace, releaseTrace, mountTrace, ttlTrace, hf]
    | serverNil hn ht hm hr hsv =>
      simp [preServerTrace, releaseTrace, mountTrace, ttlTrace, hf]

/-- C3, at the two ends of the range, inside it and outside it. -/
theorem checkHttpCacheTtl_range_witness :
    (checkHttpCacheTtl 31556926).out = Outcome.ret () ∧
    (checkHttpCacheTtl (-1)).out = Outcome.ret () ∧
    (checkHttpCacheTtl 31556927).out = Outcome.exit 1 ∧
    (checkHttpCacheTtl (-2)).out = Outcome.exit 1 ∧
    Event.enter Fn.checkHttpCacheTtl ∉ (main emptyWorld defaultFlags).trace :=
  ⟨(checkHttpCacheTtl_range 31556926).2.1 (by decide),
    (checkHttpCacheTtl_range (-1)).2.1 (by decide),
    (checkHttpCacheTtl_range 31556927).1.2 (by decide),
    (checkHttpCacheTtl_range (-2)).1.2 (by decide),
    (checkHttpCacheTtl_range 0).2.2 emptyWorld defaultFlags rfl⟩

/-- C4, as stated, fails: a non-empty `-mount` does not make `main` run the
check when `-help` is set (the run ends in `showUsage`), nor when
`time.NewTicker` panics in the memory-release step, which comes first. -/
theorem checkMountDirectory_not_reached :
    helpMountFlags.aMount ≠ "" ∧
    Event.enter Fn.checkMountDirectory ∉ (main mountWorld helpMountFlags).trace ∧
    main mountWorld helpMountFlags =
      ⟨[Event.enter Fn.showUsage, Event.usage], Outcome.exit 1⟩ ∧
    overflowMountFlags.aMount ≠ "" ∧
    Event.enter Fn.checkMountDirectory ∉ (main mountWorld overflowMountFlags).trace ∧
    main mountWorld overflowMountFlags =
      ⟨[Event.gomaxprocs 4, Event.enter Fn.memoryRelease], Outcome.panic⟩ := by
  decide

/-- C4, amended: `checkMountDirectory path` exits with status 1 when `os.Stat`
returns an error or an entry that is not a directory, and returns when it is a
directory; `main` runs the check if and only if `-mount` is non-empty, no
information flag is set and the memory-release step has not panicked. -/
theorem checkMountDirectory_stat (w : World) (path : String) :
    (∀ e, w.stat path = StatResult.error e →
      (checkMountDirectory w path).out = Outcome.exit 1) ∧
    (w.stat path = StatResult.info false →
      (checkMountDirectory w path).out = Outcome.exit 1) ∧
    (w.stat path = StatResult.info true →
      (checkMountDirectory w path).out = Outcome.ret ()) ∧
    (∀ f : Flags, Event.enter Fn.checkMountDirectory ∈ (main w f).trace ↔
      (f.aMount ≠ "" ∧ noInfoFlag f ∧ tickerOk f)) := by
  refine ⟨fun e h => ?_, fun h => ?_, fun h => ?_, fun f => ?_⟩
  · simp [checkMountDirectory, emit, osExit, h]
  · simp [checkMountDirectory, emit, osExit, h]
  · simp [checkMountDirectory, emit, osExit, h]
  · generalize hrun : main w f = r
    have hs : MainShape w f r := hrun ▸ main_shape w f
    cases hs with
    | help h =>
      simp only [noInfoFlag]
      rcases h with h | h <;> simp [h]
    | version h1 h2 h =>
      simp only [noInfoFlag]
      rcases h with h | h <;> simp [h]
    | tickerPanic hn hm hp =>
      have : ¬ tickerOk f := fun h => absurd (h hm) (not_lt.mpr hp)
      simp [this]
    | mountError e hn ht hne hst => simp [releaseTrace, hne, hn, ht]
    | mountNotDirectory hn ht hne hst => simp [releaseTrace, hne, hn, ht]
    | ttlRange hn ht hm hr =>
      by_cases hmt : f.aMount = "" <;> simp [releaseTrace, mountTrace, hmt, hn, ht]
    | serverError e hn ht hm hr hsv =>
      by_cases hmt : f.aMount = ""
      · simp [preServerTrace, releaseTrace, mountTrace, ttlTrace, hmt, hn, ht]
        split_ifs <;> simp
      · simp [preServerTrace, releaseTrace, mountTrace, ttlTrace, hmt, hn, ht]
    | serverNil hn ht hm hr hsv =>
      by_cases hmt : f.aMount = ""
      · simp [preServerTrace, releaseTrace, mountTrace, ttlTrace, hmt, hn, ht]
        split_ifs <;> simp
      · simp [preServerTrace, releaseTrace, mountTrace, ttlTrace, hmt, hn, ht]

/-- C4 amended, at a missing path, a regular file and a directory, and for
`main` with `-mount /srv` (check run) and with the default empty mount (check
not run). -/
theorem checkMountDirectory_stat_witness :
    (checkMountDirectory mountWorld "/nonexistent").out = Outcome.exit 1 ∧
    (checkMountDirectory mountWorld "/etc/hosts").out = Outcome.exit 1 ∧
    (checkMountDirectory mountWorld "/srv").out = Outcome.ret () ∧
    Event.enter Fn.checkMountDirectory ∈ (main mountWorld srvMountFlags).trace ∧
    Event.enter Fn.checkMountDirectory ∉ (main mountWorld defaultFlags).trace :=
  ⟨(checkMountDirectory_stat mountWorld "/nonexistent").1 "no such file or directory"
      (by decide),
    (checkMountDirectory_stat mountWorld "/etc/hosts").2.1 (by decide),
    (checkMountDirectory_stat mountWorld "/srv").2.2.1 (by decide),
    ((checkMountDirectory_stat mountWorld "/srv").2.2.2 srvMountFlags).2
      ⟨by decide, ⟨rfl, rfl, rfl, rfl⟩, fun _ => by decide⟩,
    fun h => (((checkMountDirectory_stat mountWorld "/srv").2.2.2 defaultFlags).1 h).1 rfl⟩

/-- C5, as stated, fails: with `-p 0` and no `PORT`, `getPort` returns 0 and
`main` hands `Server` a record whose `Port` is 0. -/
theorem getPort_nonpositive :
    getPort emptyWorld 0 = 0 ∧ ¬ (0 < getPort emptyWorld 0) ∧
    (∃ o, Event.server o ∈ (main emptyWorld { defaultFlags with aPort := 0 }).trace ∧
      o.Port = 0) := by
  refine ⟨by decide, by decide, composeOptions 0 { defaultFlags with aPort := 0 }, ?_, rfl⟩
  decide

/-- C5, amended: for a positive configured port the resolved port, which is the
`Port` of every record that `main` passes to `Server`, is positive; a
configured port is passed on unchanged, also when it is not positive, whenever
`PORT` is unset or empty or `Atoi` returns a value that is not positive for it;
so the resolved port is positive exactly when the configured port is, or the
`Atoi` value of a non-empty `PORT` is. -/
theorem getPort_pos (w : World) (f : Flags) :
    (0 < f.aPort → 0 < getPort w f.aPort ∧
      ∀ o, Event.server o ∈ (main w f).trace → 0 < o.Port) ∧
    ((Getenv w "PORT" = "" ∨ (Atoi (Getenv w "PORT")).1 ≤ 0) →
      getPort w f.aPort = f.aPort) ∧
    (0 < getPort w f.aPort ↔
      (0 < f.aPort ∨ (Getenv w "PORT" ≠ "" ∧ 0 < (Atoi (Getenv w "PORT")).1))) ∧
    (∀ o, Event.server o ∈ (main w f).trace → o.Port = getPort w f.aPort) := by
  have hport : ∀ o, Event.server o ∈ (main w f).trace → o.Port = getPort w f.aPort := by
    intro o ho
    generalize hrun : main w f = r at ho
    have hs : MainShape w f r := hrun ▸ main_shape w f
    cases hs with
    | help h => simp at ho
    | version h1 h2 h => simp at ho
    | tickerPanic hn hm hp => simp at ho
    | mountError e hn ht hne hst => simp [releaseTrace] at ho
    | mountNotDirectory hn ht hne hst => simp [releaseTrace] at ho
    | ttlRange hn ht hm hr => simp [releaseTrace, mountTrace] at ho
    | serverError e hn ht hm hr hsv =>
      simp [preServerTrace, releaseTrace, mountTrace, ttlTrace] at ho
      split_ifs at ho <;> simp at ho <;> simp [ho, composeOptions]
    | serverNil hn ht hm hr hsv =>
      simp [preServerTrace, releaseTrace, mountTrace, ttlTrace] at ho
      split_ifs at ho <;> simp at ho <;> simp [ho, composeOptions]
  have hpos : 0 < f.aPort → 0 < getPort w f.aPort := by
    intro hp
    unfold getPort
    simp only
    split_ifs with h1 h2
    · exact h2
    · exact hp
    · exact hp
  refine ⟨fun hp => ⟨hpos hp, fun o ho => (hport o ho) ▸ hpos hp⟩, ?_, ?_, hport⟩
  · intro h
    unfold getPort
    simp only
    split_ifs with h1 h2
    · rcases h with h | h
      · exact absurd h h1
      · omega
    · rfl
    · rfl
  · unfold getPort
    simp only
    split_ifs with h1 h2
    · simp [h1, h2]
    · simp [h1, h2]
    · simp [h1]

/-- C5 amended, at the default port 8088 with `PORT=-5` (positive), and at
`-p -1` with `PORT` unset (passed on as -1). -/
theorem getPort_pos_witness :
    (0 < getPort (portWorld "-5") defaultFlags.aPort ∧
      ∀ o, Event.server o ∈ (main (portWorld "-5") defaultFlags).trace → 0 < o.Port) ∧
    getPort emptyWorld negativePortFlags.aPort = negativePortFlags.aPort ∧
    (∀ o, Event.server o ∈ (main emptyWorld negativePortFlags).trace →
      o.Port = getPort emptyWorld negativePortFlags.aPort) :=
  ⟨(getPort_pos (portWorld "-5") defaultFlags).1 (by decide),
    (getPort_pos emptyWorld negativePortFlags).2.1 (Or.inl (by decide)),
    (getPort_pos emptyWorld negativePortFlags).2.2.2⟩

/-- C6: `Server` is invoked only if no information flag is set, the mount path
is empty or a directory, and the cache TTL is in [-1, 31556926]; and a run in
which a mount or cache-TTL validation fails exits with status 1 without any
`Server` call. -/
theorem main_all_or_nothing (w : World) (f : Flags) :
    (serverInvoked (main w f) → noInfoFlag f ∧ mountOk w f ∧ ttlOk f) ∧
    (validationFailed (main w f) →
      (main w f).out = Outcome.exit 1 ∧ ¬ serverInvoked (main w f)) ∧
    (noInfoFlag f → tickerOk f → ¬ (mountOk w f ∧ ttlOk f) →
      validationFailed (main w f)) := by
  generalize hrun : main w f = r
  have hs : MainShape w f r := hrun ▸ main_shape w f
  cases hs with
  | help h =>
    simp only [serverInvoked, validationFailed, noInfoFlag]
    rcases h with h | h <;> simp [h]
  | version h1 h2 h =>
    simp only [serverInvoked, validationFailed, noInfoFlag]
    rcases h with h | h <;> simp [h]
  | tickerPanic hn hm hp =>
    have : ¬ tickerOk f := fun h => absurd (h hm) (not_lt.mpr hp)
    simp [serverInvoked, validationFailed, this]
  | mountError e hn ht hne hst =>
    simp [serverInvoked, validationFailed, releaseTrace]
  | mountNotDirectory hn ht hne hst =>
    simp [serverInvoked, validationFailed, releaseTrace]
  | ttlRange hn ht hm hr =>
    simp [serverInvoked, validationFailed, releaseTrace, mountTrace]
  | serverError e hn ht hm hr hsv =>
    simp [serverInvoked, validationFailed, preServerTrace, releaseTrace, mountTrace, ttlTrace,
      hn, hm, hr]
    split_ifs <;> simp
  | serverNil hn ht hm hr hsv =>
    simp [serverInvoked, validationFailed, preServerTrace, releaseTrace, mountTrace, ttlTrace,
      hn, hm, hr]
    split_ifs <;> simp

/-- C6, at a regular file as the mount path: the run exits with status 1 and
`Server` is not called. -/
theorem main_all_or_nothing_witness :
    (main mountWorld { defaultFlags with aMount := "/etc/hosts" }).out = Outcome.exit 1 ∧
    ¬ serverInvoked (main mountWorld { defaultFlags with aMount := "/etc/hosts" }) :=
  (main_all_or_nothing mountWorld { defaultFlags with aMount := "/etc/hosts" }).2.1
    (Or.inr (Or.inl (by decide)))

/-- C7: in a run of `main` that reaches the `Server` call, the trace splits at
that call, the only one; with `-mrelease > 0` the memory-release task is
started exactly once before it and never after, and with `-mrelease <= 0` it is
not started at all. -/
theorem reclaimer_before_server (w : World) (f : Flags) (h : serverInvoked (main w f)) :
    ∃ pre post o, (main w f).trace = pre ++ Event.server o :: post ∧
      (∀ o1, Event.server o1 ∉ pre) ∧ (∀ o1, Event.server o1 ∉ post) ∧
      (f.aMRelease > 0 →
        pre.count Event.goFreeOSMemory = 1 ∧ post.count Event.goFreeOSMemory = 0 ∧
        pre.count (Event.enter Fn.memoryRelease) = 1 ∧
        post.count (Event.enter Fn.memoryRelease) = 0) ∧
      (f.aMRelease ≤ 0 → ¬ reclaimerStarted (main w f) ∧
        Event.enter Fn.memoryRelease ∉ (main w f).trace) := by
  generalize hrun : main w f = r at h ⊢
  have hs : MainShape w f r := hrun ▸ main_shape w f
  cases hs with
  | help h1 => simp [serverInvoked] at h
  | version h1 h2 h3 => simp [serverInvoked] at h
  | tickerPanic hn hm hp => simp [serverInvoked] at h
  | mountError e hn ht hne hst => simp [serverInvoked, releaseTrace] at h
  | mountNotDirectory hn ht hne hst => simp [serverInvoked, releaseTrace] at h
  | ttlRange hn ht hm hr => simp [serverInvoked, releaseTrace, mountTrace] at h
  | serverError e hn ht hm hr hsv =>
    refine ⟨preServerTrace f, [Event.stderr Diag.cannotStart],
      composeOptions (getPort w f.aPort) f, by simp, ?_, by simp, ?_, ?_⟩
    · intro o1
      simp [preServerTrace, releaseTrace, mountTrace, ttlTrace]
      split_ifs <;> simp
    · intro hm
      simp [preServerTrace, releaseTrace, mountTrace, ttlTrace, hm]
      split_ifs <;> simp
    · intro hm
      have hm2 : ¬ f.aMRelease > 0 := not_lt.mpr hm
      simp [reclaimerStarted, preServerTrace, releaseTrace, mountTrace, ttlTrace, hm2]
      split_ifs <;> simp
  | serverNil hn ht hm hr hsv =>
    refine ⟨preServerTrace f, [], composeOptions (getPort w f.aPort) f, by simp, ?_,
      by simp, ?_, ?_⟩
    · intro o1
      simp [preServerTrace, releaseTrace, mountTrace, ttlTrace]
      split_ifs <;> simp
    · intro hm
      simp [preServerTrace, releaseTrace, mountTrace, ttlTrace, hm]
      split_ifs <;> simp
    · intro hm
      have hm2 : ¬ f.aMRelease > 0 := not_lt.mpr hm
      simp [reclaimerStarted, preServerTrace, releaseTrace, mountTrace, ttlTrace, hm2]
      split_ifs <;> simp

/-- C7, at the default flags (`-mrelease 30`), where `Server` is reached. -/
theorem reclaimer_before_server_witness :
    ∃ pre post o, (main emptyWorld defaultFlags).trace = pre ++ Event.server o :: post ∧
      (∀ o1, Event.server o1 ∉ pre) ∧ (∀ o1, Event.server o1 ∉ post) ∧
      (defaultFlags.aMRelease > 0 →
        pre.count Event.goFreeOSMemory = 1 ∧ post.count Event.goFreeOSMemory = 0 ∧
        pre.count (Event.enter Fn.memoryRelease) = 1 ∧
        post.count (Event.enter Fn.memoryRelease) = 0) ∧
      (defaultFlags.aMRelease ≤ 0 → ¬ reclaimerStarted (main emptyWorld defaultFlags) ∧
        Event.enter Fn.memoryRelease ∉ (main emptyWorld defaultFlags).trace) :=
  reclaimer_before_server emptyWorld defaultFlags
    ⟨composeOptions (getPort emptyWorld defaultFlags.aPort) defaultFlags, by decide⟩

/-- C8: when `-h`, `-help`, `-v` or `-version` is set, `main` exits with status
1 after printing the usage text (help set) or the version (help not set), and
does nothing else: no memory-release task, no validation, no `Server` call. -/
theorem info_flags_exit (w : World) (f : Flags)
    (h : f.aHelp = true ∨ f.aHelpl = true ∨ f.aVers = true ∨ f.aVersl = true) :
    (main w f).out = Outcome.exit 1 ∧
    ((f.aHelp = true ∨ f.aHelpl = true) →
      (main w f).trace = [Event.enter Fn.showUsage, Event.usage]) ∧
    (f.aHelp = false → f.aHelpl = false →
      (main w f).trace = [Event.enter Fn.showVersion, Event.printVersion]) ∧
    ¬ reclaimerStarted (main w f) ∧
    Event.enter Fn.memoryRelease ∉ (main w f).trace ∧
    Event.enter Fn.checkMountDirectory ∉ (main w f).trace ∧
    Event.enter Fn.checkHttpCacheTtl ∉ (main w f).trace ∧
    (∀ p, Event.stat p ∉ (main w f).trace) ∧
    ¬ serverInvoked (main w f) := by
  by_cases hh : f.aHelp = true ∨ f.aHelpl = true
  · rw [main_help w f hh]
    simp only [reclaimerStarted, serverInvoked]
    rcases hh with hh | hh <;> simp [hh]
  · have hh1 : f.aHelp = false := by
      cases h1 : f.aHelp <;> simp [h1] at hh ⊢
    have hh2 : f.aHelpl = false := by
      cases h1 : f.aHelpl <;> simp [h1] at hh ⊢
    have hv : f.aVers = true ∨ f.aVersl = true := by
      rcases h with h | h | h | h
      · exact absurd (Or.inl h) hh
      · exact absurd (Or.inr h) hh
      · exact Or.inl h
      · exact Or.inr h
    rw [main_version w f ⟨hh1, hh2⟩ hv]
    simp [reclaimerStarted, serverInvoked, hh1, hh2]

/-- C8, at `-help` together with a mount path and `-mrelease 30`, and at
`-version`. -/
theorem info_flags_exit_witness :
    main mountWorld { defaultFlags with aHelpl := true, aMount := "/nonexistent" } =
      ⟨[Event.enter Fn.showUsage, Event.usage], Outcome.exit 1⟩ ∧
    (main mountWorld { defaultFlags with aVersl := true }).out = Outcome.exit 1 :=
  ⟨by decide, (info_flags_exit mountWorld { defaultFlags with aVersl := true }
    (Or.inr (Or.inr (Or.inr rfl)))).1⟩

/-- C9, as stated, fails: with the default `-mrelease 30` and a mount path that
does not exist, the memory-release task is started and then the mount
validation fails; the same happens with a cache TTL of -2. -/
theorem reclaimer_started_before_validation :
    main emptyWorld { defaultFlags with aMount := "/nonexistent" } =
      ⟨[Event.gomaxprocs 4, Event.enter Fn.memoryRelease, Event.newTicker 30000000000,
        Event.goFreeOSMemory, Event.enter Fn.checkMountDirectory,
        Event.stat "/nonexistent", Event.stderr Diag.mountError], Outcome.exit 1⟩ ∧
    validationFailed (main emptyWorld { defaultFlags with aMount := "/nonexistent" }) ∧
    reclaimerStarted (main emptyWorld { defaultFlags with aMount := "/nonexistent" }) ∧
    validationFailed (main emptyWorld { defaultFlags with aHttpCacheTtl := -2 }) ∧
    reclaimerStarted (main emptyWorld { defaultFlags with aHttpCacheTtl := -2 }) := by
  refine ⟨by decide, Or.inl (by decide), ?_, Or.inr (Or.inr (by decide)), ?_⟩
  · unfold reclaimerStarted; decide
  · unfold reclaimerStarted; decide

/-- C9, amended: `main` starts the memory-release task before it validates.  A
run in which a mount or cache-TTL validation fails exits with status 1 without
a `Server` call, and its trace is: a first part without any validation event,
in which the memory-release task is started exactly once if `-mrelease > 0` and
not at all otherwise; then the checks that passed; then the entry into the
failing check, its events, and its diagnostic, which is the last event.  The
task is started nowhere in the parts that follow the first. -/
theorem validation_after_reclaimer (w : World) (f : Flags)
    (h : validationFailed (main w f)) :
    (main w f).out = Outcome.exit 1 ∧ ¬ serverInvoked (main w f) ∧
    (reclaimerStarted (main w f) ↔ f.aMRelease > 0) ∧
    ∃ pre passed chk mid d,
      (main w f).trace = pre ++ (passed ++ Event.enter chk :: (mid ++ [Event.stderr d])) ∧
      failsWith chk d ∧ (∀ g, Event.enter g ∉ mid) ∧
      Event.enter Fn.checkMountDirectory ∉ pre ∧ Event.enter Fn.checkHttpCacheTtl ∉ pre ∧
      (∀ q, Event.stat q ∉ pre) ∧ (∀ m, Event.stderr m ∉ pre) ∧
      pre.count Event.goFreeOSMemory = (if f.aMRelease > 0 then 1 else 0) ∧
      pre.count (Event.enter Fn.memoryRelease) = (if f.aMRelease > 0 then 1 else 0) ∧
      (passed ++ Event.enter chk :: (mid ++ [Event.stderr d])).count Event.goFreeOSMemory = 0 ∧
      (passed ++ Event.enter chk :: (mid ++ [Event.stderr d])).count
        (Event.enter Fn.memoryRelease) = 0 := by
  generalize hrun : main w f = r at h ⊢
  have hs : MainShape w f r := hrun ▸ main_shape w f
  cases hs with
  | help h1 => simp [validationFailed] at h
  | version h1 h2 h3 => simp [validationFailed] at h
  | tickerPanic hn hm hp => simp [validationFailed] at h
  | mountError e hn ht hne hst =>
    refine ⟨rfl, by simp [serverInvoked, releaseTrace], ?_,
      Event.gomaxprocs f.aCpus :: releaseTrace f, [], Fn.checkMountDirectory,
      [Event.stat f.aMount], Diag.mountError, by simp, by simp [failsWith], by simp, ?_⟩
    · by_cases hm : f.aMRelease > 0 <;> simp [reclaimerStarted, releaseTrace, hm]
    · by_cases hm : f.aMRelease > 0 <;> simp [releaseTrace, hm]
  | mountNotDirectory hn ht hne hst =>
    refine ⟨rfl, by simp [serverInvoked, releaseTrace], ?_,
      Event.gomaxprocs f.aCpus :: releaseTrace f, [], Fn.checkMountDirectory,
      [Event.stat f.aMount], Diag.mountNotDirectory, by simp, by simp [failsWith],
      by simp, ?_⟩
    · by_cases hm : f.aMRelease > 0 <;> simp [reclaimerStarted, releaseTrace, hm]
    · by_cases hm : f.aMRelease > 0 <;> simp [releaseTrace, hm]
  | ttlRange hn ht hm hr =>
    refine ⟨rfl, by simp [serverInvoked, releaseTrace, mountTrace], ?_,
      Event.gomaxprocs f.aCpus :: releaseTrace f, mountTrace f, Fn.checkHttpCacheTtl,
      [], Diag.cacheTtlRange, by simp, by simp [failsWith], by simp, ?_⟩
    · by_cases hm : f.aMRelease > 0 <;> by_cases hmt : f.aMount = "" <;>
        simp [reclaimerStarted, releaseTrace, mountTrace, hm, hmt]
    · by_cases hm : f.aMRelease > 0 <;> by_cases hmt : f.aMount = "" <;>
        simp [releaseTrace, mountTrace, hm, hmt]
  | serverError e hn ht hm hr hsv =>
    exfalso
    simp [validationFailed, preServerTrace, releaseTrace, mountTrace, ttlTrace] at h
    split_ifs at h <;> simp at h
  | serverNil hn ht hm hr hsv =>
    exfalso
    simp [validationFailed, preServerTrace, releaseTrace, mountTrace, ttlTrace] at h
    split_ifs at h <;> simp at h

/-- C9 amended, at `-mrelease 30` with a mount path that does not exist: the
task is started, once, in the part of the run that precedes the entry into the
failing mount check. -/
theorem validation_after_reclaimer_witness :
    (main emptyWorld missingMountFlags).out = Outcome.exit 1 ∧
    ¬ serverInvoked (main emptyWorld missingMountFlags) ∧
    reclaimerStarted (main emptyWorld missingMountFlags) ∧
    ∃ pre passed chk mid d,
      (main emptyWorld missingMountFlags).trace =
        pre ++ (passed ++ Event.enter chk :: (mid ++ [Event.stderr d])) ∧
      failsWith chk d ∧ (∀ g, Event.enter g ∉ mid) ∧
      Event.enter Fn.checkMountDirectory ∉ pre ∧ Event.enter Fn.checkHttpCacheTtl ∉ pre ∧
      (∀ q, Event.stat q ∉ pre) ∧ (∀ m, Event.stderr m ∉ pre) ∧
      pre.count Event.goFreeOSMemory = 1 ∧
      pre.count (Event.enter Fn.memoryRelease) = 1 ∧
      (passed ++ Event.enter chk :: (mid ++ [Event.stderr d])).count Event.goFreeOSMemory = 0 ∧
      (passed ++ Event.enter chk :: (mid ++ [Event.stderr d])).count
        (Event.enter Fn.memoryRelease) = 0 := by
  have hpos : missingMountFlags.aMRelease > 0 := by decide
  obtain ⟨h1, h2, h3, pre, passed, chk, mid, d, h4, h5, h6, h7, h8, h9, h10, h11, h12, h13⟩ :=
    validation_after_reclaimer emptyWorld missingMountFlags (Or.inl (by decide))
  rw [if_pos hpos] at h11 h12
  exact ⟨h1, h2, h3.2 hpos, pre, passed, chk, mid, d, h4, h5, h6, h7, h8, h9, h10, h11, h12,
    h13⟩

/-- C10, as stated, fails: at `-mrelease 9223372037` the product with
`time.Second` overflows `int64`, the period is negative and differs from
`interval * 10^9`, and `time.NewTicker` panics. -/
theorem tickerPeriod_overflow :
    (0 : Int) < 9223372037 ∧
    tickerPeriod 9223372037 = -9223372036709551616 ∧
    ¬ (0 < tickerPeriod 9223372037) ∧
    tickerPeriod 9223372037 ≠ 9223372037 * 1000000000 ∧
    memoryRelease 9223372037 = ⟨[Event.enter Fn.memoryRelease], Outcome.panic⟩ := by
  decide

/-- C10, amended: for `0 < interval <= 9223372036` the ticker period is
`interval * 10^9` nanoseconds, it is positive, and `memoryRelease` creates the
ticker and starts the task without panic. -/
theorem tickerPeriod_eq (interval : Int) (h0 : 0 < interval) (h1 : interval ≤ 9223372036) :
    tickerPeriod interval = interval * 1000000000 ∧ 0 < tickerPeriod interval ∧
    memoryRelease interval =
      ⟨[Event.enter Fn.memoryRelease, Event.newTicker (interval * 1000000000),
        Event.goFreeOSMemory], Outcome.ret ()⟩ := by
  have hw : wrapInt64 interval = interval := by
    unfold wrapInt64; omega
  have hp : tickerPeriod interval = interval * 1000000000 := by
    unfold tickerPeriod
    rw [hw]
    unfold wrapInt64 Second; omega
  have hpos : 0 < tickerPeriod interval := by
    rw [hp]; omega
  refine ⟨hp, hpos, ?_⟩
  have hnp : ¬ interval * 1000000000 ≤ 0 := by omega
  simp [memoryRelease, NewTicker, emit, hnp, hp]

/-- C10 amended, at the default interval of 30 seconds and at the largest
interval that fits. -/
theorem tickerPeriod_eq_witness :
    tickerPeriod 30 = 30 * 1000000000 ∧
    tickerPeriod 9223372036 = 9223372036 * 1000000000 :=
  ⟨(tickerPeriod_eq 30 (by decide) (by decide)).1,
    (tickerPeriod_eq 9223372036 (by decide) (by decide)).1⟩

end Imaginary
